import Mathlib

/-!
Verification of the `base-type-guard` predicate library.

The library classifies arbitrary JavaScript runtime values.  We embed the
JavaScript value universe as the inductive type `JsValue` below and translate
each library function from the TypeScript source
(`src/index.ts` of the comprehensive module, and the minimal near-duplicate
module under the `IndexTs` namespace).

Host primitives the code calls through (`String.prototype.trim`, the
`Number(string)` conversion, `Object.prototype.toString` tags, `typeof`,
`JSON.stringify`, string templating `${v}`) are modelled explicitly:
`jsTrim`, `jsStringToNumber`, `protoToStringTag`, `typeofTag`,
`jsonStringifyE`, `jsToStringE`.  Where the exact output text of a host primitive
is irrelevant to every property proved here (e.g. the precise decimal
rendering of a non-integer number, or the locale-formatted text of a date)
the model produces a deterministic placeholder and says so in a comment;
every behaviour a theorem depends on (throw / no-throw, undefined / text,
finiteness, trimming, tag dispatch) is modelled faithfully.
-/

/-- JavaScript whitespace (the `StrWhiteSpaceChar` set used by both
`String.prototype.trim` and the `Number(string)` conversion):
TAB LF VT FF CR SP NBSP LS PS ZWNBSP and the Unicode space separators. -/
def isJsWhitespaceChar (c : Char) : Bool :=
  c = ' ' || c = '\t' || c = '\n' || c = '\r' ||
  c.toNat = 11 || c.toNat = 12 || c.toNat = 0xA0 || c.toNat = 0x1680 ||
  (0x2000 ≤ c.toNat && c.toNat ≤ 0x200A) ||
  c.toNat = 0x2028 || c.toNat = 0x2029 || c.toNat = 0x202F ||
  c.toNat = 0x205F || c.toNat = 0x3000 || c.toNat = 0xFEFF

/-- Strip JavaScript whitespace from both ends of a character list. -/
def jsTrimList (cs : List Char) : List Char :=
  ((cs.dropWhile isJsWhitespaceChar).reverse.dropWhile isJsWhitespaceChar).reverse

/-- Model of `String.prototype.trim`. -/
def jsTrim (s : String) : String := String.mk (jsTrimList s.toList)

/-- An idealised JavaScript number: NaN, a signed infinity, or a finite value
(represented exactly as a rational; the claims verified here only ever inspect
finiteness and simple concrete values, so IEEE-754 rounding of finite values
is not modelled, while overflow to infinity is modelled at the `2^1024`
double-overflow threshold). -/
inductive JsNum where
  | nan : JsNum
  | inf (positive : Bool) : JsNum
  | fin (q : ℚ) : JsNum

/-- Model of `Number.isFinite`. -/
def JsNum.isFinite : JsNum → Bool
  | .fin _ => true
  | _ => false

def isAsciiDigit (c : Char) : Bool := '0' ≤ c && c ≤ '9'

def isHexDigitB (c : Char) : Bool :=
  isAsciiDigit c || ('a' ≤ c && c ≤ 'f') || ('A' ≤ c && c ≤ 'F')

def digitVal (c : Char) : Nat := c.toNat - '0'.toNat

def hexVal (c : Char) : Nat :=
  if isAsciiDigit c then digitVal c
  else if 'a' ≤ c && c ≤ 'f' then c.toNat - 'a'.toNat + 10
  else c.toNat - 'A'.toNat + 10

def digitsToNat (ds : List Char) : Nat := ds.foldl (fun a c => a * 10 + digitVal c) 0

def radixToNat (base : Nat) (val : Char → Nat) (ds : List Char) : Nat :=
  ds.foldl (fun a c => a * base + val c) 0

/-- The IEEE-754 double overflow threshold `2^1024`, written as
`(2^256)^4` to keep each literal exponent small. -/
def dblOverflow : Nat := ((2 : Nat) ^ 256) ^ 4

/-- The numeric value `(-1)^neg * M * 10^E`, folded through the double
overflow threshold: magnitudes of `2^1024` and above become the
correspondingly signed infinity (the exact round-to-nearest overflow
boundary just below `2^1024` is abstracted to the threshold itself; no claim
exercises it), smaller magnitudes stay exact.  All arithmetic is integral so
that concrete inputs evaluate inside the kernel. -/
def finOrInfParts (neg : Bool) (M : Nat) (E : Int) : JsNum :=
  if M = 0 then .fin 0
  else if 0 ≤ E then
    let mag := M * 10 ^ E.toNat
    if mag < dblOverflow then
      .fin (mkRat (if neg then -(mag : Int) else (mag : Int)) 1)
    else .inf (!neg)
  else
    let den := 10 ^ (-E).toNat
    if M < dblOverflow * den then
      .fin (mkRat (if neg then -(M : Int) else (M : Int)) den)
    else .inf (!neg)

/-- Parse an optional `ExponentPart` (`e`/`E`, optional sign, digits), which
must consume the whole remaining input; `none` on malformed input. -/
def parseExponent : List Char → Option Int
  | [] => some 0
  | c :: cs =>
    if c = 'e' || c = 'E' then
      match cs with
      | '+' :: ds => if ds ≠ [] && ds.all isAsciiDigit then some (digitsToNat ds) else none
      | '-' :: ds => if ds ≠ [] && ds.all isAsciiDigit then some (-(digitsToNat ds : Int)) else none
      | ds => if ds ≠ [] && ds.all isAsciiDigit then some (digitsToNat ds) else none
    else none

/-- Parse `StrUnsignedDecimalLiteral` without the `Infinity` case:
`Digits [. Digits] [Exp]` or `. Digits [Exp]`; the whole input must match.
Returns the mantissa digits as a natural number together with the decimal
exponent (literal exponent minus the fraction length), so the value is
`M * 10^E`. -/
def parseUnsignedDec (cs : List Char) : Option (Nat × Int) :=
  let ip := cs.takeWhile isAsciiDigit
  let rest := cs.dropWhile isAsciiDigit
  match rest with
  | '.' :: rest2 =>
      let fp := rest2.takeWhile isAsciiDigit
      let rest3 := rest2.dropWhile isAsciiDigit
      if ip = [] && fp = [] then none
      else (parseExponent rest3).map (fun e => (digitsToNat (ip ++ fp), e - fp.length))
  | _ =>
      if ip = [] then none
      else (parseExponent rest).map (fun e => ((digitsToNat ip : Nat), e))

/-- Signed decimal part of `StrNumericLiteral`: optional sign, then either
the literal `Infinity` or an unsigned decimal literal. -/
def parseSignedDec (cs : List Char) : JsNum :=
  let signed : Bool × List Char :=
    match cs with
    | '+' :: t => (false, t)
    | '-' :: t => (true, t)
    | t => (false, t)
  let neg := signed.1
  let body := signed.2
  if body = ['I', 'n', 'f', 'i', 'n', 'i', 't', 'y'] then .inf (!neg)
  else
    match parseUnsignedDec body with
    | none => .nan
    | some me => finOrInfParts neg me.1 me.2

def isOctDigit (c : Char) : Bool := '0' ≤ c && c ≤ '7'
def isBinDigit (c : Char) : Bool := c = '0' || c = '1'

/-- Model of the host `Number(string)` conversion (ECMA `StringToNumber`):
trim `StrWhiteSpace`, empty means `0`, then a signed decimal literal /
`Infinity`, or an unsigned `0x`/`0o`/`0b` non-decimal integer literal;
anything else is NaN. -/
def jsStringToNumber (s : String) : JsNum :=
  match jsTrimList s.toList with
  | [] => .fin 0
  | '0' :: x :: rest =>
      if x = 'x' || x = 'X' then
        if rest ≠ [] && rest.all isHexDigitB then finOrInfParts false (radixToNat 16 hexVal rest) 0
        else .nan
      else if x = 'o' || x = 'O' then
        if rest ≠ [] && rest.all isOctDigit then finOrInfParts false (radixToNat 8 digitVal rest) 0
        else .nan
      else if x = 'b' || x = 'B' then
        if rest ≠ [] && rest.all isBinDigit then finOrInfParts false (radixToNat 2 digitVal rest) 0
        else .nan
      else parseSignedDec ('0' :: x :: rest)
  | cs => parseSignedDec cs

/-- Behaviour classes of the own `constructor` property of a function (one
that shadows the inherited intrinsic), as seen by `isAsyncFunction`, which only
reads its `name` member: a nullish value (reading `name` throws), a value
whose `name` member reads as the given string, or a value whose `name`
member reads as undefined / a non-string. -/
inductive CtorVal where
  | nullish : CtorVal
  | withName (n : String) : CtorVal
  | noName : CtorVal

/-- The facets of a JavaScript function value that the library inspects:
whether it was declared `async` (so its intrinsic constructor is the
`AsyncFunction` intrinsic, whose `name` is the string `AsyncFunction`),
an optional own `constructor` property shadowing the intrinsic one, and
whether the function exposes a callable `then` member. -/
structure FnInfo where
  isAsync : Bool
  ctorOverride : Option CtorVal
  hasCallableThen : Bool

/-- The JavaScript value universe, as far as the library observes it.
A plain object carries its own enumerable string-keyed properties (keys
distinct, as produced by any actual object literal); Maps and Sets are
abstracted to their size, dates to their timestamp. -/
inductive JsValue where
  | vNull : JsValue
  | vUndefined : JsValue
  | vBool (b : Bool) : JsValue
  | vNum (n : JsNum) : JsValue
  | vStr (s : String) : JsValue
  | vSymbol (id : Nat) : JsValue
  | vBigInt (i : Int) : JsValue
  | vArray (elems : List JsValue) : JsValue
  | vObject (props : List (String × JsValue)) : JsValue
  | vDate (time : JsNum) : JsValue
  | vRegExp : JsValue
  | vMap (size : Nat) : JsValue
  | vSet (size : Nat) : JsValue
  | vFunction (info : FnInfo) : JsValue
  | vPromise : JsValue

/-- Model of the `typeof` operator. -/
def typeofTag : JsValue → String
  | .vUndefined => "undefined"
  | .vBool _ => "boolean"
  | .vNum _ => "number"
  | .vStr _ => "string"
  | .vSymbol _ => "symbol"
  | .vBigInt _ => "bigint"
  | .vFunction _ => "function"
  | _ => "object"

/-- Model of `Object.prototype.toString.call` on each value kind. -/
def protoToStringTag : JsValue → String
  | .vNull => "[object Null]"
  | .vUndefined => "[object Undefined]"
  | .vBool _ => "[object Boolean]"
  | .vNum _ => "[object Number]"
  | .vStr _ => "[object String]"
  | .vSymbol _ => "[object Symbol]"
  | .vBigInt _ => "[object BigInt]"
  | .vArray _ => "[object Array]"
  | .vObject _ => "[object Object]"
  | .vDate _ => "[object Date]"
  | .vRegExp => "[object RegExp]"
  | .vMap _ => "[object Map]"
  | .vSet _ => "[object Set]"
  | .vFunction _ => "[object Function]"
  | .vPromise => "[object Promise]"

/-- A thrown JavaScript exception (the library only ever throws TypeErrors). -/
inductive JsError where
  | typeError (msg : String) : JsError
deriving DecidableEq

/-! ## The library predicates (translated from the comprehensive module,
`src/unnamed/part_001`; the near-duplicate minimal module follows in the
`IndexTs` namespace) -/

/-- Source `isString`: `typeof value === "string"`. -/
def isString (v : JsValue) : Bool := typeofTag v = "string"

/-- Source `isBoolean`: `typeof value === "boolean"`. -/
def isBoolean (v : JsValue) : Bool := typeofTag v = "boolean"

/-- Source `isNumber`: `typeof value === "number" && Number.isFinite(value)`. -/
def isNumber (v : JsValue) : Bool :=
  match v with
  | .vNum n => n.isFinite
  | _ => false

/-- Source `isNumeric`: a finite number, or a string whose trimmed form is non-empty
and converts to a finite number (`Number.isFinite(Number(trimmed))`). -/
def isNumeric (v : JsValue) : Bool :=
  match v with
  | .vNum n => n.isFinite
  | .vStr s =>
      let trimmed := jsTrim s
      if trimmed = "" then false else (jsStringToNumber trimmed).isFinite
  | _ => false

/-- Source `isArray`: `Array.isArray(value)`. -/
def isArray (v : JsValue) : Bool :=
  match v with
  | .vArray _ => true
  | _ => false

/-- Source `isObject`: `Object.prototype.toString.call(value) === "[object Object]"`. -/
def isObject (v : JsValue) : Bool := protoToStringTag v = "[object Object]"

/-- Source `isDate`: `value instanceof Date && !isNaN(value.getTime())`. -/
def isDate (v : JsValue) : Bool :=
  match v with
  | .vDate .nan => false
  | .vDate _ => true
  | _ => false

/-- Source `isMap`: `value instanceof Map`. -/
def isMap (v : JsValue) : Bool :=
  match v with
  | .vMap _ => true
  | _ => false

/-- Source `isSet`: `value instanceof Set`. -/
def isSet (v : JsValue) : Bool :=
  match v with
  | .vSet _ => true
  | _ => false

/-- Source `isFunction`: `typeof value === "function"`. -/
def isFunction (v : JsValue) : Bool := typeofTag v = "function"

/-- Source `isNull`: `value === null`. -/
def isNull (v : JsValue) : Bool :=
  match v with
  | .vNull => true
  | _ => false

/-- Source `isUndefined`: `value === undefined`. -/
def isUndefined (v : JsValue) : Bool :=
  match v with
  | .vUndefined => true
  | _ => false

/-- Source `isNullish`: `value == null` (loose equality, true exactly for null and
undefined). -/
def isNullish (v : JsValue) : Bool :=
  match v with
  | .vNull => true
  | .vUndefined => true
  | _ => false

/-- Own-property lookup, first match wins (models reading a named property
off a plain object; absent keys read as undefined at the call sites). -/
def propLookup : List (String × JsValue) → String → Option JsValue
  | [], _ => none
  | (k, w) :: ps, key => if k = key then some w else propLookup ps key

/-- Model of `Object.keys(value).length` for the values that can reach that call:
the own enumerable string-keyed property count of a plain object, zero for
every other kind (dates, regexps, promises carry no own enumerable keys). -/
def jsObjectKeyCount : JsValue → Nat
  | .vObject props => props.length
  | _ => 0

/-- Source `isEmpty` (comprehensive module): nullish, then trimmed-string length,
then array length, then Map/Set size, then `isObject` with `Object.keys`
count, else false. -/
def isEmpty (v : JsValue) : Bool :=
  if isNullish v then true
  else match v with
  | .vStr s => (jsTrim s).length = 0
  | .vArray es => es.length = 0
  | .vMap n => n = 0
  | .vSet n => n = 0
  | _ => if isObject v then jsObjectKeyCount v = 0 else false

/-- Source `isNotEmpty`: `!isEmpty(value)`. -/
def isNotEmpty (v : JsValue) : Bool := !isEmpty v

/-- Reading `value.then`: the own `then` property of a plain object
(undefined when absent), the intrinsic `Promise.prototype.then` function on
a promise, a callable member on a function that exposes one, undefined on
everything else (no other built-in prototype in scope defines `then`). -/
def thenMember : JsValue → JsValue
  | .vObject props =>
      match propLookup props "then" with
      | some w => w
      | none => .vUndefined
  | .vPromise => .vFunction ⟨false, none, false⟩
  | .vFunction i =>
      if i.hasCallableThen then .vFunction ⟨false, none, false⟩ else .vUndefined
  | _ => .vUndefined

/-- Source `isPromise`: `value instanceof Promise || (typeof value === "object" &&
value !== null && typeof value.then === "function")`. -/
def isPromise (v : JsValue) : Bool :=
  (match v with | .vPromise => true | _ => false) ||
  (typeofTag v = "object" && !isNull v && typeofTag (thenMember v) = "function")

/-- Source `isAsyncFunction`: `typeof value === "function" &&
value.constructor.name === "AsyncFunction"`.  Reading `.name` off a nullish
`constructor` (an own property shadowing the intrinsic one) throws, so the
result is `Except`. -/
def isAsyncFunctionE : JsValue → Except JsError Bool
  | .vFunction i =>
      match i.ctorOverride with
      | none => .ok i.isAsync
      | some .nullish => .error (.typeError "Cannot read properties of null")
      | some (.withName n) => .ok (n = "AsyncFunction")
      | some .noName => .ok false
  | _ => .ok false

/-! ## UUID matching -/

/-- Character class `[1-5]` of the UUID regex (the version nibble). -/
def isVersionDigit (c : Char) : Bool :=
  c = '1' || c = '2' || c = '3' || c = '4' || c = '5'

/-- Character class `[89ab]` under the regex flag `i` (the variant nibble). -/
def isVariantDigit (c : Char) : Bool :=
  c = '8' || c = '9' || c = 'a' || c = 'b' || c = 'A' || c = 'B'

/-- Match exactly `n` characters of the class `p`, returning the rest. -/
def matchClass (p : Char → Bool) : Nat → List Char → Option (List Char)
  | 0, cs => some cs
  | _ + 1, [] => none
  | n + 1, c :: cs => if p c then matchClass p n cs else none

/-- Match one literal character, returning the rest. -/
def matchChar (c : Char) : List Char → Option (List Char)
  | [] => none
  | x :: cs => if x = c then some cs else none

/-- The anchored UUID regex
`^[0-9a-f]\x7b8\x7d-[0-9a-f]\x7b4\x7d-[1-5][0-9a-f]\x7b3\x7d-[89ab][0-9a-f]\x7b3\x7d-[0-9a-f]\x7b12\x7d$`
with flag `i` (so the hex classes also admit `A`–`F`), translated group by
group. -/
def uuidRegexMatch (cs : List Char) : Bool :=
  ((((((((((((matchClass isHexDigitB 8 cs).bind (matchChar '-')).bind
      (matchClass isHexDigitB 4)).bind (matchChar '-')).bind
      (matchClass isVersionDigit 1)).bind (matchClass isHexDigitB 3)).bind
      (matchChar '-')).bind (matchClass isVariantDigit 1)).bind
      (matchClass isHexDigitB 3)).bind (matchChar '-')).bind
      (matchClass isHexDigitB 12)).bind
      (fun r => if r = [] then some () else none)).isSome

/-- Source `isUuid`: a string matching the UUID regex. -/
def isUuid (v : JsValue) : Bool :=
  match v with
  | .vStr s => uuidRegexMatch s.toList
  | _ => false

/-! ## String conversion, assertType, JSON -/

/-- Decimal rendering of an idealised number for the ECMA `ToString`
operation.  Integral values render exactly; the host shortest-round-trip
decimal rendering of non-integral values is abstracted to a `num/den`
placeholder (no property proved here inspects it). -/
def renderNum : JsNum → String
  | .nan => "NaN"
  | .inf true => "Infinity"
  | .inf false => "-Infinity"
  | .fin q => if q.den = 1 then toString q.num else toString q.num ++ "/" ++ toString q.den

mutual

/-- The ECMA `ToString` operation as used by the template literal in
`assertType`: throws a TypeError on symbols, renders every other kind.
Host-formatted texts that no theorem inspects (dates, regexps, function
sources) are abstracted to fixed placeholders; structure-determining
behaviour (symbol throw, array joining that recursively converts elements
and renders nullish elements as empty) is modelled faithfully. -/
def jsToStringE : JsValue → Except JsError String
  | .vSymbol _ => .error (.typeError "Cannot convert a Symbol value to a string")
  | .vNull => .ok "null"
  | .vUndefined => .ok "undefined"
  | .vBool b => .ok (cond b "true" "false")
  | .vNum n => .ok (renderNum n)
  | .vStr s => .ok s
  | .vBigInt i => .ok (toString i)
  | .vObject _ => .ok "[object Object]"
  | .vDate _ => .ok "(host formatted date)"
  | .vRegExp => .ok "(host formatted regexp)"
  | .vMap _ => .ok "[object Map]"
  | .vSet _ => .ok "[object Set]"
  | .vFunction _ => .ok "(function source text)"
  | .vPromise => .ok "[object Promise]"
  | .vArray es => arrayJoinE es

/-- Model of `Array.prototype.toString`: elements converted recursively (nullish
elements as the empty string), joined with commas. -/
def arrayJoinE : List JsValue → Except JsError String
  | [] => .ok ""
  | [v] => arrayElemStrE v
  | v :: w :: vs =>
      match arrayElemStrE v with
      | .error e => .error e
      | .ok s =>
          match arrayJoinE (w :: vs) with
          | .error e => .error e
          | .ok rest => .ok (s ++ "," ++ rest)

def arrayElemStrE : JsValue → Except JsError String
  | .vNull => .ok ""
  | .vUndefined => .ok ""
  | v => jsToStringE v

end

/-- Source `assertType`: if the predicate rejects the value, throw a TypeError
carrying `message || template`, where the template (evaluated only when
`message` is absent or falsy, i.e. the empty string) renders the value and
itself throws for symbols. -/
def assertType (v : JsValue) (p : JsValue → Bool) (message : Option String) :
    Except JsError Unit :=
  if p v then .ok ()
  else
    let chosen : Except JsError String :=
      match message with
      | some m => if m = "" then defaultAssertMsg v else .ok m
      | none => defaultAssertMsg v
    match chosen with
    | .ok m => .error (.typeError m)
    | .error e => .error e
where
  defaultAssertMsg (v : JsValue) : Except JsError String :=
    match jsToStringE v with
    | .ok s => .ok ("Type assertion failed for value: " ++ s)
    | .error e => .error e

mutual

/-- Model of `JSON.stringify`, observed only up to its claim-relevant behaviour:
whether it throws (it does exactly on bigints — the value universe is
acyclic, so circular-structure errors cannot arise) and whether it yields
text (`some ()`) or undefined (`none`, for symbols, undefined and bare
functions).  Serialized text itself is not modelled. -/
def jsonStringifyE : JsValue → Except JsError (Option Unit)
  | .vUndefined => .ok none
  | .vSymbol _ => .ok none
  | .vFunction _ => .ok none
  | .vBigInt _ => .error (.typeError "Do not know how to serialize a BigInt")
  | .vNull => .ok (some ())
  | .vBool _ => .ok (some ())
  | .vNum _ => .ok (some ())
  | .vStr _ => .ok (some ())
  | .vDate _ => .ok (some ())
  | .vRegExp => .ok (some ())
  | .vMap _ => .ok (some ())
  | .vSet _ => .ok (some ())
  | .vPromise => .ok (some ())
  | .vArray es => jsonArrayE es
  | .vObject ps => jsonPropsE ps

/-- Serialize array elements in order; an element error propagates
(unserializable elements render as null, still yielding text). -/
def jsonArrayE : List JsValue → Except JsError (Option Unit)
  | [] => .ok (some ())
  | v :: vs =>
      match jsonStringifyE v with
      | .error e => .error e
      | .ok _ => jsonArrayE vs

/-- Serialize object property values in order; an error propagates
(symbol/undefined/function values are merely omitted). -/
def jsonPropsE : List (String × JsValue) → Except JsError (Option Unit)
  | [] => .ok (some ())
  | (_, w) :: ps =>
      match jsonStringifyE w with
      | .error e => .error e
      | .ok _ => jsonPropsE ps

end

/-- Source `isJsonSerializable`: `try { JSON.stringify(value); return true }
catch { return false }`. -/
def isJsonSerializable (v : JsValue) : Bool :=
  match jsonStringifyE v with
  | .ok _ => true
  | .error _ => false

namespace IndexTs

/-- Source `isObject` (minimal module, `src/src/index.ts`):
`value !== null && typeof value === "object" && !Array.isArray(value)`. -/
def isObject (v : JsValue) : Bool :=
  !isNull v && typeofTag v = "object" && !isArray v

/-- Source `isEmpty` (minimal module): nullish, then raw string/array `length`
(no trimming), then Map/Set size, then `typeof value === "object"` with
`Object.keys` count (so dates, regexps and promises count as empty),
else false. -/
def isEmpty (v : JsValue) : Bool :=
  if isNullish v then true
  else match v with
  | .vStr s => s.length = 0
  | .vArray es => es.length = 0
  | .vMap n => n = 0
  | .vSet n => n = 0
  | _ => if typeofTag v = "object" then jsObjectKeyCount v = 0 else false

end IndexTs

/-! ## Spec-side characterisation of the UUID layout

`ListUuidShape` states, following the specification text, that a character
list is the canonical 8-4-4-4-12 hyphenated hexadecimal layout whose third
group starts with a version digit `1`–`5` and whose fourth group starts with
a variant digit `8/9/a/b` (case-insensitively).  It is proved equivalent to
the regex translation `uuidRegexMatch`. -/

/-- Every character of the list is a (case-insensitive) hex digit. -/
def HexList (l : List Char) : Prop := ∀ c ∈ l, isHexDigitB c = true

/-- The canonical hyphenated UUID layout, stated structurally. -/
def ListUuidShape (cs : List Char) : Prop :=
  ∃ g1 g2 g3 g4 g5 : List Char,
    cs = g1 ++ '-' :: (g2 ++ '-' :: (g3 ++ '-' :: (g4 ++ '-' :: g5))) ∧
    g1.length = 8 ∧ g2.length = 4 ∧ g3.length = 4 ∧ g4.length = 4 ∧
    g5.length = 12 ∧
    HexList g1 ∧ HexList g2 ∧ HexList g3 ∧ HexList g4 ∧ HexList g5 ∧
    (∃ c t, g3 = c :: t ∧ isVersionDigit c = true) ∧
    (∃ c t, g4 = c :: t ∧ isVariantDigit c = true)

/-- The UUID layout on strings. -/
def uuidShapeP (s : String) : Prop := ListUuidShape s.toList

theorem isVersionDigit_hex (c : Char) (h : isVersionDigit c = true) :
    isHexDigitB c = true := by
  have hc : (((c = '1' ∨ c = '2') ∨ c = '3') ∨ c = '4') ∨ c = '5' := by
    simpa [isVersionDigit] using h
  rcases hc with (((rfl | rfl) | rfl) | rfl) | rfl <;> rfl

theorem isVariantDigit_hex (c : Char) (h : isVariantDigit c = true) :
    isHexDigitB c = true := by
  have hc : ((((c = '8' ∨ c = '9') ∨ c = 'a') ∨ c = 'b') ∨ c = 'A') ∨ c = 'B' := by
    simpa [isVariantDigit] using h
  rcases hc with ((((rfl | rfl) | rfl) | rfl) | rfl) | rfl <;> rfl

theorem matchClass_eq_some (p : Char → Bool) :
    ∀ (n : Nat) (cs r : List Char),
      matchClass p n cs = some r ↔
        ∃ pre, cs = pre ++ r ∧ pre.length = n ∧ ∀ c ∈ pre, p c = true := by
  intro n
  induction n with
  | zero =>
      intro cs r
      constructor
      · intro h
        have hcr : cs = r := by simpa [matchClass] using h
        exact ⟨[], by simp [hcr], rfl, by simp⟩
      · rintro ⟨pre, hcs, hlen, _⟩
        have hpre : pre = [] := List.length_eq_zero.mp hlen
        subst hpre
        simp at hcs
        simp [matchClass, hcs]
  | succ n ih =>
      intro cs r
      cases cs with
      | nil =>
          constructor
          · intro h
            simp [matchClass] at h
          · rintro ⟨pre, hcs, hlen, _⟩
            cases pre with
            | nil => simp at hlen
            | cons a t => simp at hcs
      | cons c cs =>
          constructor
          · intro h
            cases hp : p c with
            | false => simp [matchClass, hp] at h
            | true =>
                simp only [matchClass, hp, if_pos] at h
                obtain ⟨pre, hcs, hlen, hall⟩ := (ih cs r).mp h
                refine ⟨c :: pre, by simp [hcs], by simp [hlen], ?_⟩
                intro d hd
                rcases List.mem_cons.mp hd with rfl | hd2
                · exact hp
                · exact hall d hd2
          · rintro ⟨pre, hcs, hlen, hall⟩
            cases pre with
            | nil => simp at hlen
            | cons a t =>
                simp only [List.cons_append, List.cons.injEq] at hcs
                obtain ⟨hca, hcs2⟩ := hcs
                subst hca
                have hpa : p c = true := hall c (List.mem_cons_self c t)
                simp only [matchClass, hpa, if_pos]
                exact (ih cs r).mpr ⟨t, hcs2, by simpa using hlen,
                  fun d hd => hall d (List.mem_cons_of_mem c hd)⟩

theorem matchChar_eq_some (c : Char) (cs r : List Char) :
    matchChar c cs = some r ↔ cs = c :: r := by
  cases cs with
  | nil => simp [matchChar]
  | cons x t =>
      by_cases hx : x = c
      · subst hx
        simp [matchChar]
      · simp [matchChar, hx, Ne.symm hx]

theorem matchChar_cons_self (c : Char) (r : List Char) :
    matchChar c (c :: r) = some r := by
  simp [matchChar]

theorem uuidRegexMatch_iff (cs : List Char) :
    uuidRegexMatch cs = true ↔ ListUuidShape cs := by
  constructor
  · intro h
    rw [uuidRegexMatch, Option.isSome_iff_exists] at h
    obtain ⟨u, hu⟩ := h
    rw [Option.bind_eq_some] at hu
    obtain ⟨r11, hu, hfin⟩ := hu
    rw [Option.bind_eq_some] at hu
    obtain ⟨r10, hu, h11⟩ := hu
    rw [Option.bind_eq_some] at hu
    obtain ⟨r9, hu, h10⟩ := hu
    rw [Option.bind_eq_some] at hu
    obtain ⟨r8, hu, h9⟩ := hu
    rw [Option.bind_eq_some] at hu
    obtain ⟨r7, hu, h8⟩ := hu
    rw [Option.bind_eq_some] at hu
    obtain ⟨r6, hu, h7⟩ := hu
    rw [Option.bind_eq_some] at hu
    obtain ⟨r5, hu, h6⟩ := hu
    rw [Option.bind_eq_some] at hu
    obtain ⟨r4, hu, h5⟩ := hu
    rw [Option.bind_eq_some] at hu
    obtain ⟨r3, hu, h4⟩ := hu
    rw [Option.bind_eq_some] at hu
    obtain ⟨r2, hu, h3⟩ := hu
    rw [Option.bind_eq_some] at hu
    obtain ⟨r1, h1, h2⟩ := hu
    have hr11 : r11 = [] := by
      by_cases hr : r11 = []
      · exact hr
      · simp [hr] at hfin
    subst hr11
    obtain ⟨pre1, hcs, hl1, hx1⟩ := (matchClass_eq_some _ 8 cs r1).mp h1
    rw [matchChar_eq_some] at h2
    obtain ⟨pre3, hr2, hl3, hx3⟩ := (matchClass_eq_some _ 4 r2 r3).mp h3
    rw [matchChar_eq_some] at h4
    obtain ⟨pre5, hr4, hl5, hv5⟩ := (matchClass_eq_some _ 1 r4 r5).mp h5
    obtain ⟨pre6, hr5, hl6, hx6⟩ := (matchClass_eq_some _ 3 r5 r6).mp h6
    rw [matchChar_eq_some] at h7
    obtain ⟨pre8, hr7, hl8, hw8⟩ := (matchClass_eq_some _ 1 r7 r8).mp h8
    obtain ⟨pre9, hr8, hl9, hx9⟩ := (matchClass_eq_some _ 3 r8 r9).mp h9
    rw [matchChar_eq_some] at h10
    obtain ⟨pre11, hr10, hl11, hx11⟩ := (matchClass_eq_some _ 12 r10 []).mp h11
    obtain ⟨c3, hc3⟩ := List.length_eq_one.mp hl5
    obtain ⟨c4, hc4⟩ := List.length_eq_one.mp hl8
    subst hc3 hc4 hr2 hr4 hr5 hr7 hr8 hr10 h2 h4 h7 h10
    refine ⟨pre1, pre3, c3 :: pre6, c4 :: pre9, pre11,
      by simp [hcs], hl1, hl3, by simp [hl6], by simp [hl9], hl11,
      hx1, hx3, ?_, ?_, ?_, ?_, ?_⟩
    · intro d hd
      rcases List.mem_cons.mp hd with rfl | hd2
      · exact isVersionDigit_hex d (hv5 d (by simp))
      · exact hx6 d hd2
    · intro d hd
      rcases List.mem_cons.mp hd with rfl | hd2
      · exact isVariantDigit_hex d (hw8 d (by simp))
      · exact hx9 d hd2
    · simpa using hx11
    · exact ⟨c3, pre6, rfl, hv5 c3 (by simp)⟩
    · exact ⟨c4, pre9, rfl, hw8 c4 (by simp)⟩
  · rintro ⟨g1, g2, g3, g4, g5, hcs, hl1, hl2, hl3, hl4, hl5,
      hx1, hx2, hx3, hx4, hx5, ⟨c3, t3, hg3, hv⟩, ⟨c4, t4, hg4, hw⟩⟩
    subst hg3 hg4 hcs
    rw [uuidRegexMatch, Option.isSome_iff_exists]
    refine ⟨(), ?_⟩
    have s1 : matchClass isHexDigitB 8
        (g1 ++ '-' :: (g2 ++ '-' :: (c3 :: t3 ++ '-' :: (c4 :: t4 ++ '-' :: g5)))) =
        some ('-' :: (g2 ++ '-' :: (c3 :: t3 ++ '-' :: (c4 :: t4 ++ '-' :: g5)))) :=
      (matchClass_eq_some _ 8 _ _).mpr ⟨g1, rfl, hl1, hx1⟩
    have s3 : matchClass isHexDigitB 4
        (g2 ++ '-' :: (c3 :: t3 ++ '-' :: (c4 :: t4 ++ '-' :: g5))) =
        some ('-' :: (c3 :: t3 ++ '-' :: (c4 :: t4 ++ '-' :: g5))) :=
      (matchClass_eq_some _ 4 _ _).mpr ⟨g2, rfl, hl2, hx2⟩
    have s5 : matchClass isVersionDigit 1
        (c3 :: t3 ++ '-' :: (c4 :: t4 ++ '-' :: g5)) =
        some (t3 ++ '-' :: (c4 :: t4 ++ '-' :: g5)) :=
      (matchClass_eq_some _ 1 _ _).mpr ⟨[c3], rfl, rfl, by
        intro d hd
        rcases List.mem_singleton.mp hd with rfl
        exact hv⟩
    have s6 : matchClass isHexDigitB 3
        (t3 ++ '-' :: (c4 :: t4 ++ '-' :: g5)) =
        some ('-' :: (c4 :: t4 ++ '-' :: g5)) :=
      (matchClass_eq_some _ 3 _ _).mpr ⟨t3, rfl, by simpa using hl3,
        fun d hd => hx3 d (List.mem_cons_of_mem c3 hd)⟩
    have s8 : matchClass isVariantDigit 1
        (c4 :: t4 ++ '-' :: g5) = some (t4 ++ '-' :: g5) :=
      (matchClass_eq_some _ 1 _ _).mpr ⟨[c4], rfl, rfl, by
        intro d hd
        rcases List.mem_singleton.mp hd with rfl
        exact hw⟩
    have s9 : matchClass isHexDigitB 3 (t4 ++ '-' :: g5) = some ('-' :: g5) :=
      (matchClass_eq_some _ 3 _ _).mpr ⟨t4, rfl, by simpa using hl4,
        fun d hd => hx4 d (List.mem_cons_of_mem c4 hd)⟩
    have s11 : matchClass isHexDigitB 12 g5 = some [] :=
      (matchClass_eq_some _ 12 _ _).mpr ⟨g5, by simp, hl5, hx5⟩
    simp only [s1, Option.some_bind, matchChar_cons_self, s3, s5, s6, s8, s9, s11]
    simp

/-! ## Claim theorems -/

/-- C1: `isObject` is true exactly on plain keyed records: false on null,
every array, every date, regexps, maps, sets and functions, true on the
empty object literal, and in general true iff the value is a plain object. -/
theorem c1_isObject_plain_record :
    isObject .vNull = false ∧
    (∀ l, isObject (.vArray l) = false) ∧
    (∀ t, isObject (.vDate t) = false) ∧
    isObject .vRegExp = false ∧
    (∀ n, isObject (.vMap n) = false) ∧
    (∀ n, isObject (.vSet n) = false) ∧
    (∀ i, isObject (.vFunction i) = false) ∧
    isObject (.vObject []) = true ∧
    (∀ v, isObject v = true ↔ ∃ props, v = .vObject props) := by
  refine ⟨rfl, fun l => rfl, fun t => rfl, rfl, fun n => rfl, fun n => rfl,
    fun i => rfl, rfl, ?_⟩
  intro v
  cases v <;> simp [isObject, protoToStringTag]

/-- C2: `isEmpty` holds on null, undefined, the empty and the whitespace-only
string, the empty array and the empty object, fails on a one-element array
and a one-property object, and fails on every value that is not nullish, not
a string, not an array, not a Map or Set, and not a plain object. -/
theorem c2_isEmpty_spec :
    isEmpty .vNull = true ∧
    isEmpty .vUndefined = true ∧
    isEmpty (.vStr "") = true ∧
    isEmpty (.vStr "   ") = true ∧
    isEmpty (.vArray []) = true ∧
    isEmpty (.vObject []) = true ∧
    isEmpty (.vArray [.vNum (.fin 1)]) = false ∧
    isEmpty (.vObject [("a", .vNum (.fin 1))]) = false ∧
    (∀ v, isNullish v = false → isString v = false → isArray v = false →
      isMap v = false → isSet v = false → isObject v = false →
      isEmpty v = false) := by
  refine ⟨rfl, rfl, by decide, by decide, rfl, rfl, rfl, rfl, ?_⟩
  intro v h1 h2 h3 h4 h5 h6
  cases v <;> first
    | rfl
    | simp_all [isNullish, isString, isArray, isMap, isSet, isObject,
        protoToStringTag, typeofTag]

/-- Witness for the universal clause of C2 at a concrete non-container value. -/
theorem c2_isEmpty_spec_witness : isEmpty (.vBool true) = false :=
  c2_isEmpty_spec.2.2.2.2.2.2.2.2 (.vBool true) rfl rfl rfl rfl rfl rfl

/-- C3: `isNotEmpty` is the boolean negation of `isEmpty` on every value. -/
theorem c3_isNotEmpty_negation : ∀ v, isNotEmpty v = !isEmpty v :=
  fun _ => rfl

/-- C4: `isNumeric` is true exactly on finite numbers and on strings whose
whitespace-trimmed form is non-empty and converts to a finite number under
the host string-to-number conversion; in particular on the sample inputs. -/
theorem c4_isNumeric_spec :
    (∀ v, isNumeric v = true ↔
      ((∃ q, v = .vNum (.fin q)) ∨
       (∃ s, v = .vStr s ∧ jsTrim s ≠ "" ∧
         (jsStringToNumber (jsTrim s)).isFinite = true))) ∧
    isNumeric (.vStr "123") = true ∧
    isNumeric (.vStr "12.5e2") = true ∧
    isNumeric (.vStr "abc") = false ∧
    isNumeric (.vNum (.inf true)) = false ∧
    isNumeric (.vNum (.inf false)) = false ∧
    isNumeric (.vNum .nan) = false := by
  refine ⟨?_, by decide, by decide, by decide, rfl, rfl, rfl⟩
  intro v
  cases v <;> simp [isNumeric]
  case vNum n => cases n <;> simp [JsNum.isFinite]

/-- C5 counterexample: a function whose `then` member is callable is still
rejected by `isPromise`, because the duck-typing branch requires
`typeof value` to be the string `object` and the `typeof` of a function is
`function`. -/
theorem c5_isPromise_counterexample :
    typeofTag (.vFunction ⟨false, none, true⟩) = "function" ∧
    typeofTag (thenMember (.vFunction ⟨false, none, true⟩)) = "function" ∧
    isPromise (.vFunction ⟨false, none, true⟩) = false :=
  ⟨rfl, rfl, rfl⟩

/-- C5 amended: `isPromise` is true iff the value is a Promise instance or a
plain object carrying a callable own `then` property; thenable functions are
not recognised. -/
theorem c5_isPromise_amended :
    ∀ v, isPromise v = true ↔
      (v = .vPromise ∨
        ∃ props i, v = .vObject props ∧
          propLookup props "then" = some (.vFunction i)) := by
  intro v
  cases v <;>
    simp [isPromise, typeofTag, isNull, thenMember]
  case vObject props =>
    cases h : propLookup props "then" with
    | none => simp [typeofTag]
    | some w => cases w <;> simp [typeofTag]

/-- C6: on a function whose own `constructor` property is null, the
unguarded member access `value.constructor.name` in `isAsyncFunction`
throws a TypeError instead of returning a boolean. -/
theorem c6_isAsyncFunction_raises :
    isAsyncFunctionE (.vFunction ⟨false, some .nullish, false⟩) =
      .error (.typeError "Cannot read properties of null") := rfl

/-- C7 counterexample: with the caller-supplied message being the empty
string (a given message, but falsy), the thrown error carries the default
message rather than the supplied one. -/
theorem c7_assertType_counterexample :
    isString (.vBool true) = false ∧
    assertType (.vBool true) isString (some "") =
      .error (.typeError "Type assertion failed for value: true") ∧
    assertType (.vBool true) isString (some "") ≠
      .error (.typeError "") := by
  have h2 : assertType (.vBool true) isString (some "") =
      .error (.typeError "Type assertion failed for value: true") := by
    simp [assertType, assertType.defaultAssertMsg, jsToStringE, isString, typeofTag]
  refine ⟨rfl, h2, ?_⟩
  rw [h2]
  intro h
  injection h with h3
  injection h3 with h4
  exact absurd h4 (by decide)

/-- C7 amended: `assertType` returns cleanly when the predicate accepts;
raises exactly when it rejects; carries a non-empty caller message verbatim;
and with no message or an empty one carries the default message with the
rendered value, or propagates the rendering error itself. -/
theorem c7_assertType_amended :
    ∀ (v : JsValue) (p : JsValue → Bool) (msg : Option String),
      (p v = true → assertType v p msg = .ok ()) ∧
      (p v = false → ∃ e, assertType v p msg = .error e) ∧
      (∀ m, p v = false → msg = some m → m ≠ "" →
        assertType v p msg = .error (.typeError m)) ∧
      (p v = false → (msg = none ∨ msg = some "") →
        ((∃ s, jsToStringE v = .ok s ∧
            assertType v p msg =
              .error (.typeError ("Type assertion failed for value: " ++ s))) ∨
         (∃ e, jsToStringE v = .error e ∧ assertType v p msg = .error e))) := by
  intro v p msg
  refine ⟨fun h => by simp [assertType, h], ?_, ?_, ?_⟩
  · intro h
    rcases msg with _ | m
    · cases hs : jsToStringE v with
      | ok s =>
          exact ⟨.typeError ("Type assertion failed for value: " ++ s),
            by simp [assertType, assertType.defaultAssertMsg, h, hs]⟩
      | error e => exact ⟨e, by simp [assertType, assertType.defaultAssertMsg, h, hs]⟩
    · by_cases hm : m = ""
      · subst hm
        cases hs : jsToStringE v with
        | ok s =>
            exact ⟨.typeError ("Type assertion failed for value: " ++ s),
              by simp [assertType, assertType.defaultAssertMsg, h, hs]⟩
        | error e => exact ⟨e, by simp [assertType, assertType.defaultAssertMsg, h, hs]⟩
      · exact ⟨.typeError m, by simp [assertType, h, hm]⟩
  · intro m h hmsg hm
    subst hmsg
    simp [assertType, h, hm]
  · intro h hcase
    have hgoal : ∀ hmsgs : Option String, hmsgs = none ∨ hmsgs = some "" →
        ((∃ s, jsToStringE v = .ok s ∧
            assertType v p hmsgs =
              .error (.typeError ("Type assertion failed for value: " ++ s))) ∨
         (∃ e, jsToStringE v = .error e ∧ assertType v p hmsgs = .error e)) := by
      intro hmsgs hc
      cases hs : jsToStringE v with
      | ok s =>
          left
          refine ⟨s, rfl, ?_⟩
          rcases hc with rfl | rfl <;>
            simp [assertType, assertType.defaultAssertMsg, h, hs]
      | error e =>
          right
          refine ⟨e, rfl, ?_⟩
          rcases hc with rfl | rfl <;>
            simp [assertType, assertType.defaultAssertMsg, h, hs]
    exact hgoal msg hcase

/-- Witness for the amended theorem of C7: a rejected value with a non-empty
custom message raises exactly that message. -/
theorem c7_assertType_amended_witness :
    assertType (.vBool true) isString (some "boom") = .error (.typeError "boom") :=
  (c7_assertType_amended (.vBool true) isString (some "boom")).2.2.1 "boom" rfl rfl
    (by decide)

/-- C8: `isUuid` accepts exactly the strings in canonical 8-4-4-4-12
hyphenated hexadecimal layout whose third group starts with a version digit
1-5 and whose fourth group starts with a variant digit 8/9/a/b, case
insensitively; the sample UUID is accepted, its version-7 variant and its
uppercase form behave as specified. -/
theorem c8_isUuid_spec :
    (∀ v, isUuid v = true ↔ ∃ s, v = .vStr s ∧ uuidShapeP s) ∧
    isUuid (.vStr "123e4567-e89b-12d3-a456-426614174000") = true ∧
    isUuid (.vStr "123E4567-E89B-12D3-A456-426614174000") = true ∧
    isUuid (.vStr "123e4567-e89b-72d3-a456-426614174000") = false := by
  refine ⟨?_, by decide, by decide, by decide⟩
  intro v
  cases v <;> simp [isUuid]
  case vStr s =>
    rw [uuidRegexMatch_iff]
    simp [uuidShapeP]

/-- C9: the two near-duplicate `isEmpty` implementations disagree: on the
whitespace-only string the comprehensive module trims (empty) while the
minimal module checks the raw length (not empty). -/
theorem c9_isEmpty_versions_differ :
    isEmpty (.vStr "   ") = true ∧ IndexTs.isEmpty (.vStr "   ") = false :=
  ⟨by decide, by decide⟩

/-- C10: `isJsonSerializable` is true on every symbol and on undefined (the
serializer yields no text but does not raise there), and in general is true
whenever serialization returns without raising. -/
theorem c10_isJsonSerializable_silent :
    (∀ i, jsonStringifyE (.vSymbol i) = .ok none ∧
      isJsonSerializable (.vSymbol i) = true) ∧
    (jsonStringifyE .vUndefined = .ok none ∧
      isJsonSerializable .vUndefined = true) ∧
    (∀ v r, jsonStringifyE v = .ok r → isJsonSerializable v = true) := by
  refine ⟨fun i => ⟨?_, ?_⟩, ⟨?_, ?_⟩, fun v r h => ?_⟩
  · simp [jsonStringifyE]
  · simp [isJsonSerializable, jsonStringifyE]
  · simp [jsonStringifyE]
  · simp [isJsonSerializable, jsonStringifyE]
  · simp [isJsonSerializable, h]

/-- Witness for the universal clause of C10 at a concrete serializable value. -/
theorem c10_isJsonSerializable_silent_witness : isJsonSerializable .vNull = true :=
  c10_isJsonSerializable_silent.2.2 .vNull (some ()) (by simp [jsonStringifyE])
